import Mathlib

set_option maxHeartbeats 1000000

/-!
Shallow embedding of the generic record-access layer of a FastAPI CRUD
boilerplate (files app/models/base_model.py, app/routes/base_router.py,
app/utils/helper_functions.py, app/schemas/base_schemas.py).

The store backing a SQLAlchemy session is modelled as a `List Record` in
insertion order.  `db.query(cls)` is that list; `.filter` is `List.filter`;
`.order_by` is a stable sort; `.limit l .offset o` is `drop o` then `take l`
(SQL applies OFFSET before LIMIT); `.count()` is `List.length`;
`.first()` is `List.find?`.  `DateTime` values are modelled as integers.
-/

/-- An entity record: the abstract base columns (`id`, `created_at`,
`updated_at` from `BaseModel`) plus the concrete entity columns of
`ExampleModel` (`name`, `value`, `description`).  `to_dict` returns exactly
the column values, so result dicts are identified with records. -/
structure Record where
  id : String
  created_at : Int
  updated_at : Int
  name : String
  value : Int
  description : String
deriving DecidableEq, Repr

/-- The columns of the entity, i.e. the valid results of
`getattr(cls, field_name)` for the sortable / searchable field names. -/
inductive Col where
  | id
  | created_at
  | updated_at
  | name
  | value
  | description
deriving DecidableEq, Repr

/-- Ascending comparison on the column named by `f`, as produced by
`getattr(cls, f).asc()`: string columns compare as strings, integer
(datetime / numeric) columns as integers. -/
def fieldLe : Col → Record → Record → Prop
  | .id, a, b => a.id ≤ b.id
  | .created_at, a, b => a.created_at ≤ b.created_at
  | .updated_at, a, b => a.updated_at ≤ b.updated_at
  | .name, a, b => a.name ≤ b.name
  | .value, a, b => a.value ≤ b.value
  | .description, a, b => a.description ≤ b.description

/-- Descending comparison, as produced by `getattr(cls, f).desc()`. -/
def fieldGe (f : Col) (a b : Record) : Prop := fieldLe f b a

instance instDecFieldLe (f : Col) : DecidableRel (fieldLe f) := fun a b =>
  match f with
  | .id => inferInstanceAs (Decidable (a.id ≤ b.id))
  | .created_at => inferInstanceAs (Decidable (a.created_at ≤ b.created_at))
  | .updated_at => inferInstanceAs (Decidable (a.updated_at ≤ b.updated_at))
  | .name => inferInstanceAs (Decidable (a.name ≤ b.name))
  | .value => inferInstanceAs (Decidable (a.value ≤ b.value))
  | .description => inferInstanceAs (Decidable (a.description ≤ b.description))

instance instDecFieldGe (f : Col) : DecidableRel (fieldGe f) := fun a b =>
  instDecFieldLe f b a

instance instTotalFieldLe (f : Col) : IsTotal Record (fieldLe f) :=
  ⟨by intro a b; cases f <;> exact le_total _ _⟩

instance instTransFieldLe (f : Col) : IsTrans Record (fieldLe f) :=
  ⟨by intro a b c hab hbc; cases f <;> exact le_trans hab hbc⟩

instance instTotalFieldGe (f : Col) : IsTotal Record (fieldGe f) :=
  ⟨by intro a b; cases f <;> exact le_total _ _⟩

instance instTransFieldGe (f : Col) : IsTrans Record (fieldGe f) :=
  ⟨by intro a b c hab hbc; cases f <;> exact le_trans hbc hab⟩

/-! ### SQL ILIKE semantics

`query.filter(getattr(cls, search_field).ilike(f"%{search}%"))` matches the
column value against the pattern `%` ++ search ++ `%` case-insensitively,
where `%` in the pattern matches any character sequence and `_` matches any
single character (SQL LIKE wildcards). -/

/-- ASCII case folding used by ILIKE: uppercase letters map to lowercase. -/
def lowerChar (c : Char) : Char :=
  if 'A' ≤ c ∧ c ≤ 'Z' then Char.ofNat (c.toNat + 32) else c

/-- Case folding of a character list. -/
def lowerList (l : List Char) : List Char := l.map lowerChar

/-- All suffixes of a list, longest first (including the list itself and
the empty suffix). -/
def suffixes : List Char → List (List Char)
  | [] => [[]]
  | c :: t => (c :: t) :: suffixes t

/-- Whether `s` occurs at the start of `t`. -/
def startsWithL : List Char → List Char → Bool
  | [], _ => true
  | _ :: _, [] => false
  | a :: s, b :: t => (a = b) && startsWithL s t

/-- SQL LIKE matching of a pattern (first argument, with wildcards `%` and
`_`) against a text (second argument); both are assumed already
case-folded. -/
def likeMatch : List Char → List Char → Bool
  | [], t => t.isEmpty
  | c :: p, t =>
    if c = '%' then (suffixes t).any (fun v => likeMatch p v)
    else
      match t with
      | [] => false
      | d :: t2 => (if c = '_' then true else c = d) && likeMatch p t2

/-- The text value the search filter compares against for a given column:
string columns verbatim, integer columns via their SQL text rendering. -/
def fieldText : Col → Record → String
  | .id, r => r.id
  | .created_at, r => toString r.created_at
  | .updated_at, r => toString r.updated_at
  | .name, r => r.name
  | .value, r => toString r.value
  | .description, r => r.description

/-- The predicate of `getattr(cls, f).ilike(f"%{s}%")` on a record. -/
def ilikeField (f : Col) (s : String) (r : Record) : Bool :=
  likeMatch ('%' :: (lowerList s.data ++ ['%'])) (lowerList (fieldText f r).data)

/-- Python truthiness of an optional integer parameter: `None` and `0` are
falsy, every other value is truthy (source: `if min_value:`). -/
def truthyInt : Option Int → Bool
  | none => false
  | some v => v != 0

namespace BaseModel

/-- The query built by the common body of `get_all`, `get_paginated` and
`get_pagination_metadata` (base_model.py lines 43-57, 77-91, 111-125):
start from `db.query(cls)`, conditionally apply the date-range, value-range
and search filters, then order by the sort column.  The `min_value` /
`max_value` guards use Python truthiness (`if min_value:`), so a bound of
`0` is not applied; the date guards are truthy for any present date; the
search filter is applied only when both `search_field` and `search` are
truthy (a present field and a non-empty term). -/
def buildQuery (db : List Record) (sort_by : Col) (order : String)
    (min_date max_date : Option Int) (min_value max_value : Option Int)
    (search_field : Option Col) (search : Option String) : List Record :=
  let q := db
  let q : List Record := match min_date with
    | some d => q.filter (fun r => d ≤ r.created_at)
    | none => q
  let q : List Record := match max_date with
    | some d => q.filter (fun r => r.created_at ≤ d)
    | none => q
  let q := if truthyInt min_value then
      q.filter (fun r => min_value.getD 0 ≤ r.value)
    else q
  let q := if truthyInt max_value then
      q.filter (fun r => r.value ≤ max_value.getD 0)
    else q
  let q : List Record := match search_field, search with
    | some f, some s => if s = "" then q else q.filter (ilikeField f s)
    | _, _ => q
  if order = "desc" then q.insertionSort (fieldGe sort_by)
  else q.insertionSort (fieldLe sort_by)

/-- `BaseModel.get_all` (base_model.py lines 30-60): the filtered, sorted
query, fully materialised. -/
def get_all (db : List Record) (sort_by : Col) (order : String)
    (min_date max_date : Option Int) (min_value max_value : Option Int)
    (search_field : Option Col) (search : Option String) : List Record :=
  buildQuery db sort_by order min_date max_date min_value max_value
    search_field search

/-- `BaseModel.get_paginated` (base_model.py lines 62-94): the filtered,
sorted query is built (line 77-91) but the returned instances come from a
fresh `db.query(cls).limit(limit).offset((page - 1) * limit)` (line 93),
i.e. a slice of the unfiltered, unsorted store. -/
def get_paginated (db : List Record) (page limit : Nat) (sort_by : Col)
    (order : String) (min_date max_date : Option Int)
    (min_value max_value : Option Int) (search_field : Option Col)
    (search : Option String) : List Record :=
  let query := buildQuery db sort_by order min_date max_date min_value
    max_value search_field search
  let instances := (db.drop ((page - 1) * limit)).take limit
  instances

/-- The pagination metadata dict returned by
`BaseModel.get_pagination_metadata`. -/
structure PaginationMetadata where
  total_count : Nat
  total_pages : Nat
  current_page : Nat
  page_size : Nat
deriving DecidableEq, Repr

/-- `BaseModel.get_pagination_metadata` (base_model.py lines 96-134):
counts the filtered query and derives
`total_pages = (total_count + limit - 1) // limit`. -/
def get_pagination_metadata (db : List Record) (page limit : Nat)
    (sort_by : Col) (order : String) (min_date max_date : Option Int)
    (min_value max_value : Option Int) (search_field : Option Col)
    (search : Option String) : PaginationMetadata :=
  let query := buildQuery db sort_by order min_date max_date min_value
    max_value search_field search
  let total_count := query.length
  { total_count := total_count
    total_pages := (total_count + limit - 1) / limit
    current_page := page
    page_size := limit }

/-- `BaseModel.get_by_id` (base_model.py lines 136-139):
`db.query(cls).filter(cls.id == instance_id).first()`, returning the
record's dict or `None`. -/
def get_by_id (instance_id : String) (db : List Record) : Option Record :=
  db.find? (fun r => r.id == instance_id)

/-- `BaseModel.delete` (base_model.py lines 161-169): find the first record
with the given id; if present remove exactly that instance from the store
and return `True`, otherwise return `False`.  Returns the flag together
with the store after the call. -/
def delete (instance_id : String) : List Record → Bool × List Record
  | [] => (false, [])
  | r :: rest =>
    if r.id == instance_id then (true, rest)
    else
      let p := delete instance_id rest
      (p.1, r :: p.2)

end BaseModel

/-! ### Exception translation (app/utils/helper_functions.py)

Internal failures are modelled as values of `PyExc`, one constructor per
exception class occurring in `handle_exceptions`' clauses.  Python raise
and except semantics are modelled faithfully: the schema classes
`NotFoundErrorResponse` and `ErrorResponse` (app/schemas/base_schemas.py)
are pydantic models, not `BaseException` subclasses, so a `raise` of one of
them itself raises `TypeError`, and an `except` clause naming one of them
raises `TypeError` when the clause is reached during matching. -/

/-- The exception values flowing through `handle_exceptions`: FastAPI
`HTTPException` (status code and detail), SQLAlchemy errors, the two
pydantic response schemas used as raise targets by the router, `ValueError`,
`TypeError`, and any other exception. -/
inductive PyExc where
  | HTTPException (status_code : Nat) (detail : String)
  | SQLAlchemyError (msg : String)
  | NotFoundErrorResponse (message : String)
  | ErrorResponse (message : String)
  | ValueError (msg : String)
  | TypeError (msg : String)
  | OtherException (msg : String)
deriving DecidableEq, Repr

/-- Whether the exception class derives from Python `BaseException`.
`NotFoundErrorResponse` and `ErrorResponse` are `pydantic.BaseModel`
subclasses (base_schemas.py lines 6-11) and do not. -/
def PyExc.isBaseException : PyExc → Bool
  | .NotFoundErrorResponse _ => false
  | .ErrorResponse _ => false
  | _ => true

/-- Python `raise e`: raising a value whose class does not derive from
`BaseException` raises `TypeError` instead. -/
def pyRaise (e : PyExc) : PyExc :=
  if e.isBaseException then e
  else .TypeError "exceptions must derive from BaseException"

/-- The outcome of running a request handler body: a returned value or a
propagating exception. -/
inductive Outcome (α : Type) where
  | ok (a : α)
  | exc (e : PyExc)
deriving DecidableEq, Repr

/-- The `handle_exceptions` decorator (helper_functions.py lines 9-53).
Clauses are tried in source order: `except HTTPException: raise` re-raises
unchanged; `except SQLAlchemyError` raises an `HTTPException(420)` whose
detail embeds the cause; the next clause is
`except NotFoundErrorResponse`, whose class is not a `BaseException`
subclass, so for any exception reaching it the match attempt itself raises
`TypeError`, which propagates out of the wrapper uncaught (the remaining
clauses of the same try statement do not apply to it). -/
def handle_exceptions : Outcome α → Outcome α
  | .ok a => .ok a
  | .exc e =>
    match e with
    | .HTTPException s d => .exc (.HTTPException s d)
    | .SQLAlchemyError m =>
      .exc (pyRaise (.HTTPException 420 ("Database connection error occurred: " ++ m)))
    | _ =>
      .exc (.TypeError "catching classes that do not inherit from BaseException is not allowed")

/-- The externally visible HTTP response: status code and body text. -/
structure ExternalResponse where
  status : Nat
  body : String
deriving DecidableEq, Repr

/-- The request-dispatch boundary around a decorated endpoint: a returned
value is serialised with the route's success status; a raised
`HTTPException` becomes a response with its status code and detail; any
other exception escaping the wrapper is turned into a plain
500 Internal Server Error by the hosting framework. -/
def runEndpoint (successStatus : Nat) (render : α → String)
    (o : Outcome α) : ExternalResponse :=
  match handle_exceptions o with
  | .ok a => ⟨successStatus, render a⟩
  | .exc (.HTTPException s d) => ⟨s, d⟩
  | .exc _ => ⟨500, "Internal Server Error"⟩

/-! ### Response envelopes (app/schemas/base_schemas.py) and the router
core functions (app/routes/base_router.py). -/

/-- `APIBaseResponse`: message plus optional record payload. -/
structure APIBaseResponse where
  message : String
  data : Option Record
deriving DecidableEq, Repr

/-- `APIBasePaginatedResponse`: message, record slice and pagination
metadata fields. -/
structure APIBasePaginatedResponse where
  message : String
  data : List Record
  page : Nat
  total_pages : Nat
  total_records : Nat
  page_size : Nat
deriving DecidableEq, Repr

namespace BaseRouter

/-- `BaseRouter.get_paginated_records` (base_router.py lines 320-388) for
the example entity: fetch the record slice and the pagination metadata and
wrap them in an `APIBasePaginatedResponse`.  The records list is never
`None`, so the not-found branch (lines 371-379) is dead and the success
envelope is always returned. -/
def get_paginated_records (db : List Record) (page limit : Nat)
    (sort_by : Col) (order : String) (min_date max_date : Option Int)
    (min_value max_value : Option Int) (search_field : Option Col)
    (search : Option String) : APIBasePaginatedResponse :=
  let records := BaseModel.get_paginated db page limit sort_by order
    min_date max_date min_value max_value search_field search
  let metadata := BaseModel.get_pagination_metadata db page limit sort_by
    order min_date max_date min_value max_value search_field search
  { message := "All ExampleModel records"
    data := records
    page := page
    total_pages := metadata.total_pages
    total_records := metadata.total_count
    page_size := limit }

/-- `BaseRouter.get_record_by_id` (base_router.py lines 390-408): look the
record up; when absent, execute
`raise NotFoundErrorResponse(message=...)` (which, the class not being an
exception class, raises `TypeError`); otherwise return the success
envelope. -/
def get_record_by_id (record_id : String) (db : List Record) :
    Outcome APIBaseResponse :=
  match BaseModel.get_by_id record_id db with
  | none => .exc (pyRaise (.NotFoundErrorResponse "No ExampleModel Found With Given Id"))
  | some record => .ok { message := "ExampleModel Found", data := some record }

/-- The full GET by-id endpoint: the handler body wrapped by
`handle_exceptions` and the framework boundary, success status 200. -/
def get_by_id_endpoint (record_id : String) (db : List Record) :
    ExternalResponse :=
  runEndpoint 200 (fun r => r.message) (get_record_by_id record_id db)

end BaseRouter

/-! ### Specification-side definitions

These two definitions follow the specification's words, not the source;
they exist only to be compared with the source-derived definitions. -/

/-- Modelled from the spec: the page slice the specification describes for
the paginated-list operation - the slice from index
(page-1)*page_size to page*page_size of the result set obtained by
applying the request's filters and sort order (the same set the
pagination metadata is computed from). -/
def specPaginatedSlice (db : List Record) (page limit : Nat)
    (sort_by : Col) (order : String) (min_date max_date : Option Int)
    (min_value max_value : Option Int) (search_field : Option Col)
    (search : Option String) : List Record :=
  ((BaseModel.buildQuery db sort_by order min_date max_date min_value
    max_value search_field search).drop ((page - 1) * limit)).take limit

/-- Whether `s` occurs at the start of some suffix of `t`, i.e. `s` is a
contiguous substring of `t`. -/
def hasSub (s t : List Char) : Bool :=
  (suffixes t).any (fun v => startsWithL s v)

/-- Modelled from the spec: the search term occurs as a case-insensitive
substring of the field value. -/
def ciSubstring (needle hay : String) : Bool :=
  hasSub (lowerList needle.data) (lowerList hay.data)

/-! ### Helper lemmas -/

/-- A sorted permutation of a sorted list is that list, given antisymmetry
of the order on the elements of the first list. -/
theorem eq_of_perm_of_sorted_anti {α : Type} {r : α → α → Prop} :
    ∀ {l₁ l₂ : List α}, l₁.Perm l₂ → l₁.Sorted r → l₂.Sorted r →
      (∀ a ∈ l₁, ∀ b ∈ l₁, r a b → r b a → a = b) → l₁ = l₂ := by
  intro l₁
  induction l₁ with
  | nil =>
    intro l₂ hp _ _ _
    exact (List.Perm.eq_nil hp.symm).symm
  | cons a t ih =>
    intro l₂ hp hs₁ hs₂ hanti
    have ha2 : a ∈ l₂ := hp.mem_iff.mp (List.mem_cons_self a t)
    cases l₂ with
    | nil => exact absurd ha2 (List.not_mem_nil a)
    | cons b t₂ =>
      have hab : a = b := by
        rcases List.mem_cons.mp ha2 with h | h
        · exact h
        · have hba : r b a := (List.pairwise_cons.mp hs₂).1 a h
          have hb1 : b ∈ a :: t := hp.symm.mem_iff.mp (List.mem_cons_self b t₂)
          rcases List.mem_cons.mp hb1 with h2 | h2
          · exact h2.symm
          · have harb : r a b := (List.pairwise_cons.mp hs₁).1 b h2
            exact hanti a (List.mem_cons_self a t) b
              (List.mem_cons.mpr (Or.inr h2)) harb hba
      subst hab
      have hp2 : t.Perm t₂ := (List.perm_cons a).mp hp
      have ht := ih hp2 (List.pairwise_cons.mp hs₁).2 (List.pairwise_cons.mp hs₂).2
        (fun x hx y hy => hanti x (List.mem_cons_of_mem a hx) y
          (List.mem_cons_of_mem a hy))
      rw [ht]

/-- Python integer ceiling division `(N + P - 1) // P` is the ceiling of
the rational `N / P`. -/
theorem add_pred_div_eq_ceil (N P : Nat) (hP : 0 < P) :
    (N + P - 1) / P = ⌈(N : ℚ) / (P : ℚ)⌉₊ := by
  rcases Nat.eq_zero_or_pos N with hN | hN
  · subst hN
    rw [Nat.div_eq_of_lt (by omega)]
    simp
  · have hq : 0 < (N + P - 1) / P := Nat.div_pos (by omega) hP
    have hmod := Nat.div_add_mod (N + P - 1) P
    have hr : (N + P - 1) % P < P := Nat.mod_lt _ hP
    set q := (N + P - 1) / P with hqdef
    set m := P * q with hm
    have h1 : N ≤ q * P := by rw [Nat.mul_comm, ← hm]; omega
    have h3 : (q - 1) * P < N := by
      have hstep : (q - 1) * P = m - P := by
        rw [hm, Nat.sub_mul, one_mul, Nat.mul_comm]
      omega
    refine ((Nat.ceil_eq_iff (Nat.pos_iff_ne_zero.mp hq)).mpr ⟨?_, ?_⟩).symm
    · rw [lt_div_iff (by exact_mod_cast hP)]
      exact_mod_cast h3
    · rw [div_le_iff (by exact_mod_cast hP)]
      exact_mod_cast h1

/-- `N` records fill at most `(N + P - 1) / P` pages of size `P`. -/
theorem le_add_pred_div_mul (N P : Nat) (hP : 0 < P) :
    N ≤ ((N + P - 1) / P) * P := by
  have hmod := Nat.div_add_mod (N + P - 1) P
  have hr : (N + P - 1) % P < P := Nat.mod_lt _ hP
  set q := (N + P - 1) / P with hqdef
  set m := P * q with hm
  rw [Nat.mul_comm, ← hm]
  omega

/-! ### C10 -/

/-- C10: a numeric range bound equal to 0 is silently not applied: the
list, paginated and count queries each return the same result with
`min_value = 0` (resp. `max_value = 0`) as with that bound absent. -/
theorem zero_bound_not_applied (db : List Record) (page limit : Nat)
    (sort_by : Col) (order : String) (min_date max_date : Option Int)
    (other : Option Int) (search_field : Option Col) (search : Option String) :
    BaseModel.get_all db sort_by order min_date max_date (some 0) other
        search_field search
      = BaseModel.get_all db sort_by order min_date max_date none other
        search_field search
    ∧ BaseModel.get_all db sort_by order min_date max_date other (some 0)
        search_field search
      = BaseModel.get_all db sort_by order min_date max_date other none
        search_field search
    ∧ BaseModel.get_paginated db page limit sort_by order min_date max_date
        (some 0) other search_field search
      = BaseModel.get_paginated db page limit sort_by order min_date max_date
        none other search_field search
    ∧ BaseModel.get_paginated db page limit sort_by order min_date max_date
        other (some 0) search_field search
      = BaseModel.get_paginated db page limit sort_by order min_date max_date
        other none search_field search
    ∧ BaseModel.get_pagination_metadata db page limit sort_by order min_date
        max_date (some 0) other search_field search
      = BaseModel.get_pagination_metadata db page limit sort_by order min_date
        max_date none other search_field search
    ∧ BaseModel.get_pagination_metadata db page limit sort_by order min_date
        max_date other (some 0) search_field search
      = BaseModel.get_pagination_metadata db page limit sort_by order min_date
        max_date other none search_field search :=
  ⟨rfl, rfl, rfl, rfl, rfl, rfl⟩

/-! ### C6 -/

/-- C6: an exception that is already an `HTTPException` when it reaches the
`handle_exceptions` translator is re-raised unchanged (same status code,
same detail message) and reaches the boundary with exactly that status and
message, without being re-wrapped into another category. -/
theorem http_exception_passes_through {α : Type} (s : Nat) (d : String)
    (succ : Nat) (render : α → String) :
    handle_exceptions (Outcome.exc (PyExc.HTTPException s d) : Outcome α)
      = Outcome.exc (PyExc.HTTPException s d)
    ∧ runEndpoint succ render (Outcome.exc (PyExc.HTTPException s d))
      = ⟨s, d⟩ :=
  ⟨rfl, rfl⟩

/-! ### C5 -/

/-- C5: a storage failure (raised `SQLAlchemyError`) is mapped by the
translator to the distinct custom status 420 carrying the cause text, not
to the generic 500 internal-error status. -/
theorem storage_error_maps_to_420 {α : Type} (m : String) (succ : Nat)
    (render : α → String) :
    runEndpoint succ render (Outcome.exc (PyExc.SQLAlchemyError m) : Outcome α)
      = ⟨420, "Database connection error occurred: " ++ m⟩
    ∧ (runEndpoint succ render
        (Outcome.exc (PyExc.SQLAlchemyError m) : Outcome α)).status ≠ 500 :=
  ⟨rfl, by
    intro h
    have h2 : (420 : Nat) = 500 := h
    exact absurd h2 (by decide)⟩

/-! ### C2 -/

/-- C2 (code bug): on a get-by-id request for an id with no stored record,
the handler executes `raise NotFoundErrorResponse(...)`; since that class
is a pydantic model and not an exception class, the raise itself produces a
`TypeError`, and the translator's `except NotFoundErrorResponse` clause is
equally invalid, so the externally visible response is a generic 500, not
the 404 NotFound response the code documents. -/
theorem get_missing_id_returns_500 :
    BaseRouter.get_by_id_endpoint "absent-id" []
      = ⟨500, "Internal Server Error"⟩
    ∧ (BaseRouter.get_by_id_endpoint "absent-id" []).status ≠ 404 := by
  decide

/-! ### C9 -/

/-- C9: over a store with unique ids, deleting an id and then fetching it
yields the not-found result, and `delete` returns `True` exactly when a
record with that id existed before the call. -/
theorem delete_then_get_not_found (db : List Record) (rid : String)
    (h : db.Pairwise (fun a b => a.id ≠ b.id)) :
    BaseModel.get_by_id rid (BaseModel.delete rid db).2 = none
    ∧ ((BaseModel.delete rid db).1 = true ↔ ∃ r ∈ db, r.id = rid) := by
  induction db with
  | nil => simp [BaseModel.delete, BaseModel.get_by_id]
  | cons r rest ih =>
    have hhead : ∀ b ∈ rest, r.id ≠ b.id := (List.pairwise_cons.mp h).1
    have htail := (List.pairwise_cons.mp h).2
    by_cases hr : r.id = rid
    · subst hr
      have hdel : BaseModel.delete r.id (r :: rest) = (true, rest) := by
        simp [BaseModel.delete]
      constructor
      · rw [hdel]
        show BaseModel.get_by_id r.id rest = none
        unfold BaseModel.get_by_id
        rw [List.find?_eq_none]
        intro x hx hbeq
        exact hhead x hx (eq_of_beq hbeq).symm
      · rw [hdel]
        constructor
        · intro _
          exact ⟨r, List.mem_cons_self r rest, rfl⟩
        · intro _
          rfl
    · have hbeq : (r.id == rid) = false := beq_eq_false_iff_ne.mpr hr
      have hdel : BaseModel.delete rid (r :: rest)
          = ((BaseModel.delete rid rest).1, r :: (BaseModel.delete rid rest).2) := by
        simp [BaseModel.delete, hbeq]
      constructor
      · rw [hdel]
        show BaseModel.get_by_id rid (r :: (BaseModel.delete rid rest).2) = none
        unfold BaseModel.get_by_id
        rw [List.find?_cons_of_neg]
        · exact (ih htail).1
        · simp [hbeq]
      · rw [hdel]
        show (BaseModel.delete rid rest).1 = true ↔ ∃ x ∈ r :: rest, x.id = rid
        rw [(ih htail).2]
        constructor
        · rintro ⟨x, hx, hxid⟩
          exact ⟨x, List.mem_cons_of_mem r hx, hxid⟩
        · rintro ⟨x, hx, hxid⟩
          rcases List.mem_cons.mp hx with h2 | h2
          · exact absurd (h2 ▸ hxid) hr
          · exact ⟨x, h2, hxid⟩

/-- Witness for C9 at a concrete two-record store. -/
theorem delete_then_get_not_found_witness :
    ([⟨"a", 1, 1, "Alpha", 1, "d"⟩, ⟨"b", 2, 2, "Beta", 10, "d"⟩] :
        List Record).Pairwise (fun a b => a.id ≠ b.id)
    ∧ (BaseModel.get_by_id "a"
        (BaseModel.delete "a"
          [⟨"a", 1, 1, "Alpha", 1, "d"⟩, ⟨"b", 2, 2, "Beta", 10, "d"⟩]).2 = none
      ∧ ((BaseModel.delete "a"
          [⟨"a", 1, 1, "Alpha", 1, "d"⟩, ⟨"b", 2, 2, "Beta", 10, "d"⟩]).1 = true
        ↔ ∃ r ∈ ([⟨"a", 1, 1, "Alpha", 1, "d"⟩,
            ⟨"b", 2, 2, "Beta", 10, "d"⟩] : List Record), r.id = "a")) :=
  ⟨by decide,
    delete_then_get_not_found
      [⟨"a", 1, 1, "Alpha", 1, "d"⟩, ⟨"b", 2, 2, "Beta", 10, "d"⟩] "a"
      (by decide)⟩

/-- Concrete example records used by witnesses and counterexamples. -/
def rA : Record := ⟨"a", 1, 1, "Alpha", 1, "da"⟩

/-- Second concrete example record; its `value` 10 passes a `min_value = 5`
filter which `rA` fails. -/
def rB : Record := ⟨"b", 2, 2, "Beta", 10, "dbx"⟩

/-- A two-record store in insertion order. -/
def dbAB : List Record := [rA, rB]

/-- With no filters and no search, the common query is just the sorted
store. -/
theorem buildQuery_no_filters (db : List Record) (sort_by : Col)
    (order : String) :
    BaseModel.buildQuery db sort_by order none none none none none none
      = if order = "desc" then db.insertionSort (fieldGe sort_by)
        else db.insertionSort (fieldLe sort_by) := rfl

/-- With no filters, the common query has the length of the store. -/
theorem length_buildQuery_no_filters (db : List Record) (sort_by : Col)
    (order : String) :
    (BaseModel.buildQuery db sort_by order none none none none none none).length
      = db.length := by
  rw [buildQuery_no_filters]
  split
  · exact (List.perm_insertionSort _ db).length_eq
  · exact (List.perm_insertionSort _ db).length_eq

/-! ### C3 -/

/-- C3: for every query, the pagination metadata's total page count equals
the ceiling of total matching count divided by the page size, whenever the
page size is positive. -/
theorem total_pages_eq_ceil (db : List Record) (page limit : Nat)
    (sort_by : Col) (order : String) (min_date max_date mv Mv : Option Int)
    (search_field : Option Col) (search : Option String) (hP : 0 < limit) :
    (BaseModel.get_pagination_metadata db page limit sort_by order min_date
        max_date mv Mv search_field search).total_pages
      = ⌈((BaseModel.get_pagination_metadata db page limit sort_by order
          min_date max_date mv Mv search_field search).total_count : ℚ)
          / (limit : ℚ)⌉₊ := by
  have h1 : (BaseModel.get_pagination_metadata db page limit sort_by order
      min_date max_date mv Mv search_field search).total_pages
      = ((BaseModel.buildQuery db sort_by order min_date max_date mv Mv
          search_field search).length + limit - 1) / limit := rfl
  have h2 : (BaseModel.get_pagination_metadata db page limit sort_by order
      min_date max_date mv Mv search_field search).total_count
      = (BaseModel.buildQuery db sort_by order min_date max_date mv Mv
          search_field search).length := rfl
  rw [h1, h2]
  exact add_pred_div_eq_ceil _ _ hP

/-- Witness for C3 at a concrete store, page size 2. -/
theorem total_pages_eq_ceil_witness :
    0 < 2
    ∧ (BaseModel.get_pagination_metadata dbAB 1 2 .created_at "asc" none none
        none none none none).total_pages
      = ⌈((BaseModel.get_pagination_metadata dbAB 1 2 .created_at "asc" none
          none none none none none).total_count : ℚ) / (2 : ℚ)⌉₊ :=
  ⟨by decide,
    total_pages_eq_ceil dbAB 1 2 .created_at "asc" none none none none none
      none (by decide)⟩

/-! ### C1 -/

/-- C1 counterexample: with a `min_value` filter active, the record slice
returned by the paginated-list operation differs from the slice of the
filtered and sorted result set that the claim describes: the code returns
the first record of the unfiltered store even though the filter excludes
it. -/
theorem paginated_slice_ignores_filters_cex :
    BaseModel.get_paginated dbAB 1 1 .created_at "asc" none none (some 5)
        none none none
      ≠ specPaginatedSlice dbAB 1 1 .created_at "asc" none none (some 5)
        none none none := by
  decide

/-- C1 (amended): for every paginated list request, the returned records
are the slice from index (page-1)*page_size to page*page_size of the
unfiltered, insertion-ordered record store, regardless of the request's
filters, search and sort order; only the pagination metadata reflects the
filtered, sorted result set. -/
theorem get_paginated_unfiltered_slice (db : List Record) (page limit : Nat)
    (sort_by : Col) (order : String) (min_date max_date mv Mv : Option Int)
    (search_field : Option Col) (search : Option String) :
    BaseModel.get_paginated db page limit sort_by order min_date max_date
        mv Mv search_field search
      = (db.drop ((page - 1) * limit)).take limit := rfl

/-! ### C4 -/

/-- C4 counterexample: with a `min_value` filter active, a page number
beyond the total page count of the matching record set does not yield an
empty slice: the slice is taken from the unfiltered store, which still has
records there. -/
theorem out_of_range_page_nonempty_cex :
    (BaseModel.get_pagination_metadata dbAB 2 1 .created_at "asc" none none
        (some 5) none none none).total_pages < 2
    ∧ BaseModel.get_paginated dbAB 2 1 .created_at "asc" none none (some 5)
        none none none ≠ [] := by
  decide

/-- C4 (amended): for a paginated request with no filters and no search,
a page number beyond the total page count yields an empty slice, the
metadata still reports the correct total count and ceiling page count, and
the operation signals no error (the endpoint responds with success status
200). -/
theorem out_of_range_page_empty (db : List Record) (page limit : Nat)
    (sort_by : Col) (order : String) (hP : 0 < limit)
    (hpage : (BaseModel.get_pagination_metadata db page limit sort_by order
        none none none none none none).total_pages < page) :
    BaseModel.get_paginated db page limit sort_by order none none none none
        none none = []
    ∧ (BaseModel.get_pagination_metadata db page limit sort_by order none
        none none none none none).total_count = db.length
    ∧ (BaseModel.get_pagination_metadata db page limit sort_by order none
        none none none none none).total_pages
      = ⌈(db.length : ℚ) / (limit : ℚ)⌉₊
    ∧ (runEndpoint 200 (fun r => r.message)
        (Outcome.ok (BaseRouter.get_paginated_records db page limit sort_by
          order none none none none none none))).status = 200 := by
  have hcount : (BaseModel.get_pagination_metadata db page limit sort_by
      order none none none none none none).total_count = db.length := by
    show (BaseModel.buildQuery db sort_by order none none none none none
      none).length = db.length
    exact length_buildQuery_no_filters db sort_by order
  have htp : (BaseModel.get_pagination_metadata db page limit sort_by order
      none none none none none none).total_pages
      = (db.length + limit - 1) / limit := by
    show ((BaseModel.buildQuery db sort_by order none none none none none
      none).length + limit - 1) / limit = _
    rw [length_buildQuery_no_filters db sort_by order]
  have hbound : db.length ≤ (page - 1) * limit := by
    rw [htp] at hpage
    have h1 : db.length ≤ ((db.length + limit - 1) / limit) * limit :=
      le_add_pred_div_mul _ _ hP
    have h2 : ((db.length + limit - 1) / limit) * limit
        ≤ (page - 1) * limit :=
      Nat.mul_le_mul (by omega) (Nat.le_refl limit)
    omega
  refine ⟨?_, hcount, ?_, rfl⟩
  · show (db.drop ((page - 1) * limit)).take limit = []
    rw [List.drop_eq_nil_of_le hbound]
    exact List.take_nil
  · rw [htp]
    exact add_pred_div_eq_ceil _ _ hP

/-- Witness for C4 at a concrete store: 2 records, page size 1, page 3. -/
theorem out_of_range_page_empty_witness :
    0 < 1
    ∧ (BaseModel.get_pagination_metadata dbAB 3 1 .created_at "asc" none
        none none none none none).total_pages < 3
    ∧ (BaseModel.get_paginated dbAB 3 1 .created_at "asc" none none none
        none none none = []
      ∧ (BaseModel.get_pagination_metadata dbAB 3 1 .created_at "asc" none
          none none none none none).total_count = dbAB.length
      ∧ (BaseModel.get_pagination_metadata dbAB 3 1 .created_at "asc" none
          none none none none none).total_pages
        = ⌈(dbAB.length : ℚ) / (1 : ℚ)⌉₊
      ∧ (runEndpoint 200 (fun r => r.message)
          (Outcome.ok (BaseRouter.get_paginated_records dbAB 3 1 .created_at
            "asc" none none none none none none))).status = 200) :=
  ⟨by decide, by decide,
    out_of_range_page_empty dbAB 3 1 .created_at "asc" (by decide)
      (by decide)⟩

/-! ### C7 -/

/-- C7: with the default sort parameters (`created_at`, ascending) and no
filters, the list-all operation returns records with the earliest
`created_at` first, and the same request with descending order returns
exactly the reverse of the ascending result.  Stated for stores with
pairwise-distinct `created_at` values; on ties the underlying SQL ORDER BY
leaves the relative order unspecified. -/
theorem default_sort_asc_desc_reverse (db : List Record)
    (hdist : db.Pairwise (fun a b => a.created_at ≠ b.created_at)) :
    List.Sorted (fun a b => a.created_at ≤ b.created_at)
      (BaseModel.get_all db .created_at "asc" none none none none none none)
    ∧ BaseModel.get_all db .created_at "desc" none none none none none none
      = (BaseModel.get_all db .created_at "asc" none none none none none
          none).reverse := by
  have hA : BaseModel.get_all db .created_at "asc" none none none none none
      none = db.insertionSort (fieldLe .created_at) := rfl
  have hD : BaseModel.get_all db .created_at "desc" none none none none none
      none = db.insertionSort (fieldGe .created_at) := rfl
  have hmemA : ∀ a, a ∈ db.insertionSort (fieldGe .created_at) → a ∈ db :=
    fun a ha => (List.perm_insertionSort _ db).mem_iff.mp ha
  have hinj : ∀ a ∈ db, ∀ b ∈ db, a.created_at = b.created_at → a = b := by
    intro a ha b hb heq
    by_contra hne
    exact (List.Pairwise.forall (fun x y hxy => hxy.symm) hdist ha hb hne) heq
  constructor
  · rw [hA]
    exact List.sorted_insertionSort (fieldLe .created_at) db
  · rw [hA, hD]
    apply eq_of_perm_of_sorted_anti
      (r := fieldGe .created_at)
    · exact (List.perm_insertionSort _ db).trans
        ((List.perm_insertionSort (fieldLe .created_at) db).symm.trans
          (List.reverse_perm _).symm)
    · exact List.sorted_insertionSort (fieldGe .created_at) db
    · exact List.pairwise_reverse.mpr
        (List.sorted_insertionSort (fieldLe .created_at) db)
    · intro a ha b hb hab hba
      exact hinj a (hmemA a ha) b (hmemA b hb) (le_antisymm hba hab)

/-- Witness for C7 at a concrete two-record store with distinct
timestamps. -/
theorem default_sort_asc_desc_reverse_witness :
    dbAB.Pairwise (fun a b => a.created_at ≠ b.created_at)
    ∧ (List.Sorted (fun a b => a.created_at ≤ b.created_at)
        (BaseModel.get_all dbAB .created_at "asc" none none none none none
          none)
      ∧ BaseModel.get_all dbAB .created_at "desc" none none none none none
          none
        = (BaseModel.get_all dbAB .created_at "asc" none none none none
            none none).reverse) :=
  ⟨by decide, default_sort_asc_desc_reverse dbAB (by decide)⟩

/-! ### ILIKE lemmas for C8 -/

/-- Unfolding of a leading `%` wildcard: the rest of the pattern must match
some suffix of the text. -/
theorem likeMatch_cons_percent (p t : List Char) :
    likeMatch ('%' :: p) t = (suffixes t).any (fun v => likeMatch p v) := by
  simp [likeMatch]

/-- The empty pattern matches some suffix of every text (the empty one). -/
theorem any_suffixes_nil_pattern (t : List Char) :
    (suffixes t).any (fun v => likeMatch [] v) = true := by
  induction t with
  | nil => rfl
  | cons c t ih =>
    rw [suffixes, List.any_cons, ih]
    simp

/-- A trailing lone `%` matches every text. -/
theorem likeMatch_percent_end (t : List Char) : likeMatch ['%'] t = true := by
  rw [likeMatch_cons_percent]
  exact any_suffixes_nil_pattern t

/-- A wildcard-free pattern followed by `%` matches exactly the texts that
start with the pattern. -/
theorem likeMatch_literal_percent (s : List Char)
    (hs : ∀ c ∈ s, c ≠ '%' ∧ c ≠ '_') :
    ∀ t, likeMatch (s ++ ['%']) t = startsWithL s t := by
  induction s with
  | nil =>
    intro t
    rw [List.nil_append, likeMatch_percent_end]
    rfl
  | cons c s ih =>
    intro t
    have hc := hs c (List.mem_cons_self c s)
    have ihs : ∀ x ∈ s, x ≠ '%' ∧ x ≠ '_' :=
      fun x hx => hs x (List.mem_cons_of_mem c hx)
    cases t with
    | nil => simp [likeMatch, startsWithL, hc.1]
    | cons d t2 => simp [likeMatch, startsWithL, hc.1, hc.2, ih ihs t2]

/-- For a wildcard-free search term, the full `%term%` ILIKE pattern
matches exactly the texts containing the term as a substring. -/
theorem ilike_iff_hasSub (s : List Char)
    (hs : ∀ c ∈ s, c ≠ '%' ∧ c ≠ '_') (t : List Char) :
    likeMatch ('%' :: (s ++ ['%'])) t = hasSub s t := by
  rw [likeMatch_cons_percent]
  unfold hasSub
  simp only [likeMatch_literal_percent s hs]

/-- The empty term is a substring of every text. -/
theorem hasSub_nil (t : List Char) : hasSub [] t = true := by
  cases t <;> rfl

/-- `startsWithL` is list-prefix occurrence. -/
theorem startsWithL_iff (s : List Char) :
    ∀ t, startsWithL s t = true ↔ ∃ v, t = s ++ v := by
  induction s with
  | nil =>
    intro t
    simp [startsWithL]
  | cons a s ih =>
    intro t
    cases t with
    | nil => simp [startsWithL]
    | cons b t2 =>
      simp only [startsWithL, Bool.and_eq_true, decide_eq_true_eq,
        List.cons_append, List.cons.injEq, ih t2]
      constructor
      · rintro ⟨hab, v, hv⟩
        exact ⟨v, hab.symm, hv⟩
      · rintro ⟨v, hba, hv⟩
        exact ⟨hba.symm, v, hv⟩

/-- Every list is a suffix of itself. -/
theorem self_mem_suffixes (t : List Char) : t ∈ suffixes t := by
  cases t <;> simp [suffixes]

/-- A member of `suffixes t` is a suffix of `t`. -/
theorem suffixes_mem_decomp (t : List Char) :
    ∀ w ∈ suffixes t, ∃ u, t = u ++ w := by
  induction t with
  | nil =>
    intro w hw
    simp [suffixes] at hw
    exact ⟨[], by simp [hw]⟩
  | cons c t ih =>
    intro w hw
    rcases List.mem_cons.mp hw with h | h
    · exact ⟨[], by simp [h]⟩
    · obtain ⟨u, hu⟩ := ih w h
      exact ⟨c :: u, by rw [List.cons_append, ← hu]⟩

/-- A list is a suffix of anything it is appended to. -/
theorem mem_suffixes_append : ∀ (u t : List Char), t ∈ suffixes (u ++ t) := by
  intro u
  induction u with
  | nil => exact fun t => self_mem_suffixes t
  | cons c u ih =>
    intro t
    rw [List.cons_append]
    exact List.mem_cons.mpr (Or.inr (ih t))

/-- `hasSub` is exactly contiguous-substring occurrence. -/
theorem hasSub_iff (s t : List Char) :
    hasSub s t = true ↔ ∃ u v, t = u ++ s ++ v := by
  unfold hasSub
  rw [List.any_eq_true]
  constructor
  · rintro ⟨w, hw, hstart⟩
    obtain ⟨v, hv⟩ := (startsWithL_iff s w).mp hstart
    obtain ⟨u, hu⟩ := suffixes_mem_decomp t w hw
    exact ⟨u, v, by rw [hu, hv, List.append_assoc]⟩
  · rintro ⟨u, v, hv⟩
    refine ⟨s ++ v, ?_, (startsWithL_iff s (s ++ v)).mpr ⟨v, rfl⟩⟩
    rw [hv, List.append_assoc]
    exact mem_suffixes_append u (s ++ v)

/-! ### C8 -/

/-- A record whose name contains `abc`, used to exhibit the `_` wildcard. -/
def rWild : Record := ⟨"w", 3, 3, "abc", 0, "dw"⟩

/-- C8 counterexample: searching for the term `a_c` on field `name`
matches the record named `abc` (the `_` acts as a SQL single-character
wildcard), although `a_c` does not occur as a case-insensitive substring
of `abc`. -/
theorem search_wildcard_not_substring_cex :
    BaseModel.get_all [rWild] .created_at "asc" none none none none
        (some .name) (some "a_c") = [rWild]
    ∧ ciSubstring "a_c" (fieldText .name rWild) = false := by
  decide

/-- C8 (amended): for a search term free of the SQL wildcard characters
`%` and `_`, a record is in the search-filtered list result iff it is in
the store and the term occurs as a case-insensitive substring of the named
string field; terms containing `%` or `_` are instead interpreted as SQL
ILIKE wildcards. -/
theorem search_ci_substring (db : List Record) (f : Col)
    (hf : f = Col.id ∨ f = Col.name ∨ f = Col.description) (s : String)
    (hs : ∀ c ∈ lowerList s.data, c ≠ '%' ∧ c ≠ '_') (r : Record) :
    r ∈ BaseModel.get_all db .created_at "asc" none none none none (some f)
        (some s)
      ↔ r ∈ db ∧ ciSubstring s (fieldText f r) = true := by
  by_cases hempty : s = ""
  · subst hempty
    have hred : BaseModel.get_all db .created_at "asc" none none none none
        (some f) (some "") = db.insertionSort (fieldLe .created_at) := rfl
    rw [hred, (List.perm_insertionSort _ db).mem_iff]
    have hsub : ciSubstring "" (fieldText f r) = true := hasSub_nil _
    simp [hsub]
  · have hred : BaseModel.get_all db .created_at "asc" none none none none
        (some f) (some s)
        = (db.filter (ilikeField f s)).insertionSort (fieldLe .created_at) := by
      simp [BaseModel.get_all, BaseModel.buildQuery, truthyInt, hempty]
    have hlike : ilikeField f s r = ciSubstring s (fieldText f r) :=
      ilike_iff_hasSub (lowerList s.data) hs (lowerList (fieldText f r).data)
    rw [hred, (List.perm_insertionSort _ _).mem_iff, List.mem_filter, hlike]

/-- A record named like the spec's example. -/
def rEx : Record := ⟨"e", 4, 4, "Example", 0, "de"⟩

/-- Witness for C8: searching `ex` on field `name` matches the record
named `Example`. -/
theorem search_ci_substring_witness :
    (Col.name = Col.id ∨ Col.name = Col.name ∨ Col.name = Col.description)
    ∧ (∀ c ∈ lowerList "ex".data, c ≠ '%' ∧ c ≠ '_')
    ∧ (rEx ∈ BaseModel.get_all [rEx] .created_at "asc" none none none none
        (some .name) (some "ex")
      ↔ rEx ∈ [rEx] ∧ ciSubstring "ex" (fieldText .name rEx) = true) :=
  ⟨Or.inr (Or.inl rfl), by decide,
    search_ci_substring [rEx] .name (Or.inr (Or.inl rfl)) "ex" (by decide)
      rEx⟩
